import Mathlib

/-!
Verification development for the `Pdf-to-csv` repository.

The Python sources under `src/src/core/` are shallowly embedded below:
`pdf_extractor.py` (method detection, per-backend extraction, dataframe
cleaning) and `csv_converter.py` (table merging, merged-data cleaning, CSV
validation).  External PDF libraries (tabula, camelot, pdfplumber, PyPDF2)
are modelled as an environment record supplying their responses; everything
the repository itself computes is translated from the source.

A pandas cell is `Option String`: `none` is NaN/None, `some s` a string
value (the repository only ever manipulates object/string columns).
Fallible code returns `Except Unit`: `Except.error ()` models a raised
Python exception.

The file is organized as definitions first, then all theorems.
-/

namespace PdfToCsv

/-! Python string primitives used by the source, over character lists so
that everything reduces by computation. -/

/-- The character list of `s.strip()`: whitespace removed from both ends. -/
def stripList (l : List Char) : List Char :=
  ((l.dropWhile Char.isWhitespace).reverse.dropWhile Char.isWhitespace).reverse

/-- Python `str.strip()` (no arguments): trim whitespace from both ends. -/
def pyStrip (s : String) : String :=
  String.mk (stripList s.data)

/-- Split a character list at every occurrence of a separator character
(Python `str.split(sep)` for a one-character separator). -/
def splitOnChar (sep : Char) : List Char → List (List Char)
  | [] => [[]]
  | c :: rest =>
    match splitOnChar sep rest with
    | [] => [[]]
    | h :: t => if c = sep then [] :: h :: t else (c :: h) :: t

/-- Python `str.split(sep)` for a one-character separator. -/
def pySplit (sep : Char) (s : String) : List String :=
  (splitOnChar sep s.data).map String.mk

/-- Python `str.split('  ')`: split at every occurrence of two consecutive
spaces (the only multi-character separator the source uses). -/
def splitDoubleSpace : List Char → List (List Char)
  | [] => [[]]
  | [c] => [[c]]
  | c1 :: c2 :: rest =>
    if c1 = ' ' ∧ c2 = ' ' then [] :: splitDoubleSpace rest
    else
      match splitDoubleSpace (c2 :: rest) with
      | [] => [[]]
      | h :: t => (c1 :: h) :: t

/-- Python `sub in s` for a one-character `sub`. -/
def pyContains (s : String) (c : Char) : Bool :=
  s.data.contains c

/-- Python `'  ' in s`. -/
def hasDoubleSpace (s : String) : Bool :=
  (splitDoubleSpace s.data).length > 1

/-- Digits of a decimal numeral to its value, `none` on a non-numeral. -/
def natOfDigits (l : List Char) : Option Nat :=
  if l = [] then none
  else if l.all Char.isDigit then
    some (l.foldl (fun acc c => acc * 10 + (c.toNat - 48)) 0)
  else none

/-- Python `int(s)` on the plain numerals this repository feeds it
(optional sign then decimal digits; a raising call is `none`). -/
def pyInt? (s : String) : Option Int :=
  match s.data with
  | '-' :: rest => (natOfDigits rest).map (fun v => -(v : Int))
  | '+' :: rest => (natOfDigits rest).map (fun v => (v : Int))
  | l => (natOfDigits l).map (fun v => (v : Int))

instance exceptDecEq {e a : Type} [DecidableEq e] [DecidableEq a] :
    DecidableEq (Except e a) := fun x y =>
  match x, y with
  | .ok v, .ok w => decidable_of_iff (v = w) (by simp)
  | .ok _, .error _ => .isFalse (by simp)
  | .error _, .ok _ => .isFalse (by simp)
  | .error v, .error w => decidable_of_iff (v = w) (by simp)

/-! Tables (pandas DataFrames restricted to object columns). -/

/-- A pandas cell: `none` models NaN/None, `some s` a string value. -/
abbrev Cell := Option String

/-- A pandas DataFrame: ordered column names plus rows of cells. -/
structure Df where
  cols : List String
  rows : List (List Cell)
  deriving DecidableEq, Repr

/-- `pd.DataFrame.empty`: true when either axis has length zero. -/
def Df.isEmpty (d : Df) : Bool :=
  d.rows.length = 0 || d.cols.length = 0

/-- A well-formed frame: every row has exactly one cell per column
(the invariant pandas maintains for any real DataFrame). -/
def Df.Rect (d : Df) : Prop :=
  ∀ r ∈ d.rows, r.length = d.cols.length

instance (d : Df) : Decidable d.Rect := by
  unfold Df.Rect; infer_instance

/-! `PDFExtractor._clean_dataframe` (pdf_extractor.py lines 335-357):
`df.dropna(how='all').dropna(axis=1, how='all')`, then
`df.columns = [str(col).strip() for col in df.columns]`, then for every
(object) column `astype(str).str.strip()` and `replace('nan', '')`,
then `reset_index(drop=True)` (a no-op here).  The body cannot raise in
this model, so the `except` branch returning `df` unchanged is dead. -/

/-- One cell through `astype(str).str.strip()` + `replace('nan','')`:
`str(NaN)` is the text `'nan'`, strip, and the exact value `'nan'`
becomes `''`. -/
def cleanCell (c : Cell) : String :=
  let t := pyStrip (c.getD "nan")
  if t = "nan" then "" else t

/-- `df.dropna(how='all')`: keep rows that have at least one non-NaN cell. -/
def rowsKept (d : Df) : List (List Cell) :=
  d.rows.filter (fun r => r.any (fun c => c.isSome))

/-- `.dropna(axis=1, how='all')` on the row-filtered frame: indices of the
columns that keep at least one non-NaN cell. -/
def colsKept (d : Df) : List Nat :=
  (List.range d.cols.length).filter
    (fun j => (rowsKept d).any (fun r => (r.getD j none).isSome))

/-- `PDFExtractor._clean_dataframe`. -/
def cleanDf (d : Df) : Df :=
  { cols := (colsKept d).map (fun j => pyStrip (d.cols.getD j "")),
    rows := (rowsKept d).map
      (fun r => (colsKept d).map (fun j => some (cleanCell (r.getD j none)))) }

/-- Shape of an already-cleaned frame: rectangular, all cells fixed by the
cell cleaner, all column names trimmed, and no degenerate axis kept alone. -/
def CleanShape (e : Df) : Prop :=
  (∀ r ∈ e.rows, r.length = e.cols.length ∧ ∀ c ∈ r, some (cleanCell c) = c) ∧
  (∀ s ∈ e.cols, pyStrip s = s) ∧
  (e.rows = [] → e.cols = []) ∧
  (e.cols = [] → e.rows = [])

/-! Page-selector handling.  The source has no central normalization:
`_extract_with_tabula`/`_extract_with_camelot` pass the raw `pages` string
to the library (lines 148/154 and 194/200-204), while
`_extract_with_pdfplumber` (lines 248-260) and `_extract_with_pypdf2`
(lines 299-315) each parse the string inline. -/

/-- `start = int(start) - 1 if start else 0` (lines 255/307). -/
def parseStartTok (a : String) : Except Unit Int :=
  if a = "" then .ok 0
  else match pyInt? a with
    | some k => .ok (k - 1)
    | none => .error ()

/-- `end = int(end) if end != 'end' else <page count>` (lines 256/308). -/
def parseEndTok (n : Nat) (b : String) : Except Unit Int :=
  if b = "end" then .ok (n : Int)
  else match pyInt? b with
    | some k => .ok k
    | none => .error ()

/-- Python sequence indexing `pages[i]` with wrap-around for negatives and
IndexError out of range. -/
def pyIndex (n : Nat) (i : Int) : Except Unit Nat :=
  if 0 ≤ i then (if i < (n : Int) then .ok i.toNat else .error ())
  else if -(n : Int) ≤ i then .ok (((n : Int) + i)).toNat else .error ()

/-- Python slice bound normalization for `list[start:end]` on length `n`. -/
def pySliceBound (n : Nat) (i : Int) : Nat :=
  if i < 0 then ((n : Int) + i).toNat else min i.toNat n

/-- The indices selected by `list(range(n))[s:e]` (Python slicing). -/
def pySlice (n : Nat) (s e : Int) : List Nat :=
  List.range' (pySliceBound n s) (pySliceBound n e - pySliceBound n s)

/-- Python `range(a, b)` over integers. -/
def intRange (a b : Int) : List Int :=
  (List.range (b - a).toNat).map (fun k : Nat => a + (k : Int))

/-- The 0-based pages `_extract_with_pdfplumber` processes for a `pages`
argument and page count `n`: all pages when the argument is missing or
falsy, a Python slice of `pdf.pages` for `start-end` syntax, and
`[pdf.pages[i] for i in page_nums if i < len(pdf.pages)]` for comma lists.
`Except.error` models an uncaught ValueError/IndexError. -/
def pdfplumberPages (pr : Option String) (n : Nat) : Except Unit (List Nat) :=
  match pr with
  | none => .ok (List.range n)
  | some s =>
    if s = "" then .ok (List.range n)
    else if pyContains s '-' then
      match pySplit '-' s with
      | [a, b] => do
          let st ← parseStartTok a
          let en ← parseEndTok n b
          return pySlice n st en
      | _ => .error ()
    else do
      let nums ← (pySplit ',' s).mapM (fun p =>
        match pyInt? p with
        | some k => Except.ok (k - 1)
        | none => Except.error ())
      (nums.filter (fun i => decide (i < (n : Int)))).mapM (pyIndex n)

/-- The 0-based pages `_extract_with_pypdf2` processes:
`range(start, min(end, n))` for `start-end` syntax, filtered indices for
comma lists, each then used to index `pdf_reader.pages`. -/
def pypdf2Pages (pr : Option String) (n : Nat) : Except Unit (List Nat) :=
  match pr with
  | none => .ok (List.range n)
  | some s =>
    if s = "" then .ok (List.range n)
    else if pyContains s '-' then
      match pySplit '-' s with
      | [a, b] => do
          let st ← parseStartTok a
          let en ← parseEndTok n b
          (intRange st (min en (n : Int))).mapM (pyIndex n)
      | _ => .error ()
    else do
      let nums ← (pySplit ',' s).mapM (fun p =>
        match pyInt? p with
        | some k => Except.ok (k - 1)
        | none => Except.error ())
      (nums.filter (fun i => decide (i < (n : Int)))).mapM (pyIndex n)

/-- Modelled from the spec: the canonical 0-based page set denoted by a
selector string — "all" means every page, `start-end` an inclusive 1-based
range with `end` meaning the last page, and a comma list explicit 1-based
pages. -/
def canonicalPages (s : String) (n : Nat) : List Nat :=
  if s = "all" then List.range n
  else if pyContains s '-' then
    match pySplit '-' s with
    | [a, b] =>
      let st := if a = "" then 1 else (pyInt? a).getD 1
      let en := if b = "end" then (n : Int) else (pyInt? b).getD (n : Int)
      (List.range n).filter (fun i => decide (st - 1 ≤ (i : Int)) && decide ((i : Int) < en))
    | _ => []
  else ((pySplit ',' s).filterMap pyInt?).filterMap
    (fun k => if 1 ≤ k ∧ k ≤ (n : Int) then some (k - 1).toNat else none)

/-! The extraction coordinator (`PDFExtractor.extract_data`,
`_detect_best_method`, and the four `_extract_with_*` backends).  The
behavior of the external libraries is supplied by a `PdfEnv` record. -/

/-- Responses of the external world for one PDF: availability flags of the
optional libraries, probe results on page 1, full read results, and the
per-page tables/text that pdfplumber/PyPDF2 deliver. -/
structure PdfEnv where
  fileExists : Bool
  numPages : Nat
  tabulaAvail : Bool
  camelotAvail : Bool
  pdfplumberAvail : Bool
  /-- `tabula.read_pdf(path, pages=1, silent=True, lattice=True)` -/
  tabulaProbe : Except Unit (List Df)
  /-- `camelot.read_pdf(path, pages='1')`, as the list of its tables -/
  camelotProbe : Except Unit (List Df)
  /-- `tabula.read_pdf(path, pages, lattice, stream=not lattice, guess=True,
  silent=True)`, keyed by the `pages` string and the `lattice` flag -/
  tabulaRead : String → Bool → Except Unit (List Df)
  /-- `camelot.read_pdf(path, pages, flavor)`: each table's `.df` and
  `.accuracy` -/
  camelotRead : String → String → Except Unit (List (Df × Rat))
  /-- `page.extract_tables()` of pdfplumber for a 0-based page index -/
  pageTables : Nat → List (List (List Cell))
  /-- `page.extract_text()` of PyPDF2 for a 0-based page index -/
  pageText : Nat → String

/-- Keyword arguments of `extract_data` that the core reads. -/
structure Kwargs where
  method : Option String := none
  pages : Option String := none
  lattice : Option Bool := none
  flavor : Option String := none

/-- Stage 3 of `_detect_best_method` (lines 135-139): pdfplumber is
returned as soon as it is installed, without any probing. -/
def detectPlumberStage (env : PdfEnv) : String :=
  if env.pdfplumberAvail then "pdfplumber" else "pypdf2"

/-- Stage 2 of `_detect_best_method` (lines 126-133): camelot probe on
page '1'; any exception is swallowed; a nonempty table list suffices (no
emptiness check on the tables themselves). -/
def detectCamelotStage (env : PdfEnv) : String :=
  if env.camelotAvail then
    match env.camelotProbe with
    | .ok (_ :: _) => "camelot"
    | _ => detectPlumberStage env
  else detectPlumberStage env

/-- `_detect_best_method` (lines 105-143).  Stage 1: tabula probe on page
1 with lattice; any exception is swallowed; requires a nonempty list whose
first frame is non-empty.  The outer `except` returning 'pypdf2' is
unreachable because no stage raises. -/
def detectBestMethod (env : PdfEnv) : String :=
  if env.tabulaAvail then
    match env.tabulaProbe with
    | .ok (t :: _) => if t.isEmpty then detectCamelotStage env else "tabula"
    | _ => detectCamelotStage env
  else detectCamelotStage env

/-- Modelled from the spec (claim C2): probe tabula, camelot and
pdfplumber on page 1 in that order and return the first backend whose
probe yields at least one non-empty table, else the raw-text backend. -/
def specDetect (env : PdfEnv) : String :=
  if env.tabulaAvail &&
      (match env.tabulaProbe with
       | .ok ts => ts.any (fun t => !t.isEmpty)
       | .error _ => false) then "tabula"
  else if env.camelotAvail &&
      (match env.camelotProbe with
       | .ok ts => ts.any (fun t => !t.isEmpty)
       | .error _ => false) then "camelot"
  else if env.pdfplumberAvail &&
      (env.pageTables 0).any (fun td => decide (td ≠ [])) then "pdfplumber"
  else "pypdf2"

/-- The tabula probe condition actually implemented: a nonempty result
list whose first frame is non-empty. -/
def tabulaProbeHit (env : PdfEnv) : Bool :=
  match env.tabulaProbe with
  | .ok (t :: _) => !t.isEmpty
  | _ => false

/-- The camelot probe condition actually implemented: a nonempty result
list (the frames themselves are not inspected). -/
def camelotProbeHit (env : PdfEnv) : Bool :=
  match env.camelotProbe with
  | .ok (_ :: _) => true
  | _ => false

/-- The amended description of auto-detection: tabula on a hit, else
camelot on a hit, else pdfplumber whenever merely installed, else PyPDF2;
probe exceptions count as misses. -/
def specDetectAmended (env : PdfEnv) : String :=
  if env.tabulaAvail && tabulaProbeHit env then "tabula"
  else if env.camelotAvail && camelotProbeHit env then "camelot"
  else if env.pdfplumberAvail then "pdfplumber"
  else "pypdf2"

/-- The result dictionary a backend extraction returns (`tables`,
`total_rows`, `total_columns`, `method`, and the optional keys `pages`,
`raw_text`, `accuracy` that only some backends set). -/
structure ExtractOut where
  tables : List Df
  total_rows : Nat
  total_columns : Nat
  method : String
  pages : Option String := none
  raw_text : Option (List String) := none
  accuracy : Option Rat := none
  deriving DecidableEq

/-- One iteration of the shared per-frame loop: clean the frame, append
it, add its row count, and max its column count (lines 171-177, 214-221). -/
def stepClean (acc : List Df × Nat × Nat) (df : Df) : List Df × Nat × Nat :=
  let c := cleanDf df
  (acc.1 ++ [c], acc.2.1 + c.rows.length, max acc.2.2 c.cols.length)

/-- The tabula/camelot frame loop: frames that are empty before cleaning
are skipped. -/
def processTables (dfs : List Df) : List Df × Nat × Nat :=
  dfs.foldl (fun acc df => if df.isEmpty then acc else stepClean acc df) ([], 0, 0)

/-- `_extract_with_tabula` (lines 145-189).  Exceptions from the library
are re-raised (`except ... raise`). -/
def extractWithTabula (env : PdfEnv) (k : Kwargs) : Except Unit ExtractOut :=
  let pages := k.pages.getD "all"
  let lattice := k.lattice.getD true
  do
    let dfs ← env.tabulaRead pages lattice
    if dfs = [] then
      return { tables := [], total_rows := 0, total_columns := 0, method := "tabula" }
    else
      let (ts, tr, mc) := processTables dfs
      return { tables := ts, total_rows := tr, total_columns := mc,
               method := "tabula", pages := some pages }

/-- `_extract_with_camelot` (lines 191-234). -/
def extractWithCamelot (env : PdfEnv) (k : Kwargs) : Except Unit ExtractOut :=
  let pages := k.pages.getD "1-end"
  let flavor := k.flavor.getD "lattice"
  do
    let tl ← env.camelotRead pages flavor
    if tl = [] then
      return { tables := [], total_rows := 0, total_columns := 0, method := "camelot" }
    else
      let (ts, tr, mc) := processTables (tl.map (fun x => x.1))
      return { tables := ts, total_rows := tr, total_columns := mc,
               method := "camelot", pages := some pages,
               accuracy := some (((tl.map (fun x => x.2)).sum) / (tl.length : Rat)) }

/-- Python `str(cell)` on a pdfplumber header cell (`str(None) = 'None'`). -/
def cellStr (c : Cell) : String :=
  match c with
  | some s => s
  | none => "None"

/-- `pd.DataFrame(table_data[1:], columns=table_data[0])`. -/
def rawDf (td : List (List Cell)) : Df :=
  { cols := (td.headD []).map cellStr, rows := td.tail }

/-- One pdfplumber raw table through lines 266-275: skipped when falsy,
cleaned, then appended only when non-empty after cleaning. -/
def plumbStep (acc : List Df × Nat × Nat) (td : List (List Cell)) :
    List Df × Nat × Nat :=
  if td = [] then acc
  else
    let df := cleanDf (rawDf td)
    if df.isEmpty then acc
    else (acc.1 ++ [df], acc.2.1 + df.rows.length, max acc.2.2 df.cols.length)

/-- `_extract_with_pdfplumber` (lines 236-287). -/
def extractWithPdfplumber (env : PdfEnv) (k : Kwargs) : Except Unit ExtractOut :=
  do
    let idxs ← pdfplumberPages k.pages env.numPages
    let (ts, tr, mc) := idxs.foldl
      (fun acc i => (env.pageTables i).foldl plumbStep acc) ([], 0, 0)
    return { tables := ts, total_rows := tr, total_columns := mc,
             method := "pdfplumber",
             pages := some (match k.pages with
               | none => "all"
               | some s => if s = "" then "all" else s) }

/-- Lines 369-382 of `_parse_text_to_table`: is the line a candidate row,
and if so its cells. -/
def lineCells (line : String) : Option (List String) :=
  let l := pyStrip line
  if l ≠ "" ∧ (pyContains l '\t' ∨ hasDoubleSpace l ∨ pyContains l '|') then
    let cells :=
      if pyContains l '\t' then pySplit '\t' l
      else if pyContains l '|' then
        ((pySplit '|' l).map pyStrip).filter (fun c => c ≠ "")
      else
        ((splitDoubleSpace l.data).map (fun cs => pyStrip (String.mk cs))).filter
          (fun c => c ≠ "")
    if cells.length > 1 then some cells else none
  else none

/-- `_parse_text_to_table` (lines 359-407): per page text, collect
candidate rows, keep the ones at least half as wide as the widest, pad
them to uniform width, and build a cleaned frame from header + data rows.
The body cannot raise, so the `except` branch returning `[]` is dead. -/
def parseTextToTable (texts : List String) : List Df :=
  texts.foldl (fun acc text =>
    let potentialRows := (pySplit '\n' text).filterMap lineCells
    if potentialRows = [] then acc
    else
      let maxCols := (potentialRows.map (fun r => r.length)).foldl max 0
      let consistent := potentialRows.filter (fun row => decide (row.length ≥ maxCols / 2))
      if consistent = [] then acc
      else
        let padded := consistent.map
          (fun row => (row ++ List.replicate (maxCols - row.length) "").take maxCols)
        if padded.length > 1 then
          let df := cleanDf { cols := padded.headD [],
                              rows := padded.tail.map (fun r => r.map some) }
          if df.isEmpty then acc else acc ++ [df]
        else acc) []

/-- `_extract_with_pypdf2` (lines 289-333): pages whose stripped text is
nonempty contribute their raw text; the result has no `pages` key. -/
def extractWithPypdf2 (env : PdfEnv) (k : Kwargs) : Except Unit ExtractOut :=
  do
    let idxs ← pypdf2Pages k.pages env.numPages
    let texts := (idxs.map env.pageText).filter (fun t => pyStrip t ≠ "")
    let parsed := parseTextToTable texts
    return { tables := parsed,
             total_rows := (parsed.map (fun t => t.rows.length)).sum,
             total_columns := (parsed.map (fun t => t.cols.length)).foldl max 0,
             method := "pypdf2", raw_text := some texts }

/-- The method after resolving 'auto' (lines 76-78). -/
def resolveMethod (env : PdfEnv) (k : Kwargs) : String :=
  let m := k.method.getD "auto"
  if m = "auto" then detectBestMethod env else m

/-- The dispatch of lines 81-89: a requested backend runs only if its
library is available; everything else falls through to PyPDF2. -/
def dispatchExtract (env : PdfEnv) (k : Kwargs) : Except Unit ExtractOut :=
  let m := resolveMethod env k
  if m = "tabula" && env.tabulaAvail then extractWithTabula env k
  else if m = "camelot" && env.camelotAvail then extractWithCamelot env k
  else if m = "pdfplumber" && env.pdfplumberAvail then extractWithPdfplumber env k
  else extractWithPypdf2 env k

/-- The backend that actually runs for a call, by the same dispatch. -/
def usedMethod (env : PdfEnv) (k : Kwargs) : String :=
  let m := resolveMethod env k
  if m = "tabula" && env.tabulaAvail then "tabula"
  else if m = "camelot" && env.camelotAvail then "camelot"
  else if m = "pdfplumber" && env.pdfplumberAvail then "pdfplumber"
  else "pypdf2"

/-- The `available_methods` mapping of the constructor (lines 48-53). -/
def methodAvailable (env : PdfEnv) (m : String) : Bool :=
  if m = "tabula" then env.tabulaAvail
  else if m = "camelot" then env.camelotAvail
  else if m = "pdfplumber" then env.pdfplumberAvail
  else if m = "pypdf2" then true
  else false

/-- The dictionary returned by `extract_data` after the metadata update of
lines 92-96. -/
structure FinalResult where
  tables : List Df
  total_rows : Nat
  total_columns : Nat
  method : String
  pages : Option String
  raw_text : Option (List String)
  accuracy : Option Rat
  source_file : String
  extraction_method : String
  pages_processed : String
  deriving DecidableEq

/-- Lines 92-96: `source_file`, `extraction_method` (the resolved request,
not necessarily the backend that ran) and `pages_processed =
extracted_data.get('pages', 'all')` are added to the backend result. -/
def addMeta (path m : String) (o : ExtractOut) : FinalResult :=
  { tables := o.tables, total_rows := o.total_rows,
    total_columns := o.total_columns, method := o.method, pages := o.pages,
    raw_text := o.raw_text, accuracy := o.accuracy, source_file := path,
    extraction_method := m, pages_processed := o.pages.getD "all" }

/-- `PDFExtractor.extract_data` (lines 57-103): missing file raises; the
outer `except` logs and re-raises, so backend errors propagate. -/
def extractData (env : PdfEnv) (path : String) (k : Kwargs) :
    Except Unit FinalResult :=
  if env.fileExists then
    (dispatchExtract env k).map (addMeta path (resolveMethod env k))
  else .error ()

/-! `CSVConverter` (csv_converter.py): table merging and validation. -/

/-- Deduplication keeping first occurrences (Python `set` accumulation /
`drop_duplicates`). -/
def dropDupFirst {α : Type} [DecidableEq α] (l : List α) : List α :=
  l.foldl (fun acc a => if a ∈ acc then acc else acc ++ [a]) []

/-- Ordering of Python string comparison: lexicographic on code points. -/
def charsLe : List Char → List Char → Bool
  | [], _ => true
  | _ :: _, [] => false
  | a :: as, b :: bs =>
    if a.toNat < b.toNat then true
    else if b.toNat < a.toNat then false
    else charsLe as bs

/-- Python `s1 <= s2` on strings. -/
def pyStrLe (a b : String) : Bool :=
  charsLe a.data b.data

/-- Insert into a sorted list (ascending). -/
def insertStr (a : String) : List String → List String
  | [] => [a]
  | b :: l => if pyStrLe a b then a :: b :: l else b :: insertStr a l

/-- Python `sorted(...)` on strings (insertion sort; order agrees with the
built-in sort on distinct elements). -/
def sortStrs (l : List String) : List String :=
  l.foldr insertStr []

/-- Lines 107-112 of `_union_tables`: `sorted(list(set union of all column
names))`. -/
def unionCols (ts : List Df) : List String :=
  sortStrs (dropDupFirst ((ts.map (fun t => t.cols)).flatten))

/-- `table.reindex(columns=C, fill_value='')`: every row is rebuilt on the
column set `C`, absent columns filled with the empty string. -/
def reindexDf (c : List String) (t : Df) : Df :=
  { cols := c,
    rows := t.rows.map (fun r => c.map (fun name =>
      match t.cols.findIdx? (fun x => x == name) with
      | some j => r.getD j none
      | none => some "")) }

/-- `pd.concat(frames, ignore_index=True, sort=False)`: raises on an empty
input list; otherwise columns are the union in first-appearance order and
every row is aligned to it by column name, absent cells NaN (frames with
duplicate column labels are outside this model). -/
def pdConcat (ts : List Df) : Except Unit Df :=
  if ts = [] then .error ()
  else
    let c := dropDupFirst ((ts.map (fun t => t.cols)).flatten)
    .ok { cols := c,
          rows := (ts.map (fun t => t.rows.map (fun r => c.map (fun name =>
            match t.cols.findIdx? (fun x => x == name) with
            | some j => r.getD j none
            | none => none)))).flatten }

/-- The `try` body of `_union_tables` (lines 103-123): empty input gives
an empty frame; otherwise reindex every table to the sorted column union
(`reindex` raises on duplicate column labels) and concatenate. -/
def unionTablesBody (ts : List Df) : Except Unit Df :=
  if ts = [] then .ok { cols := [], rows := [] }
  else do
    let aligned ← ts.mapM (fun t =>
      if t.cols.Nodup then Except.ok (reindexDf (unionCols ts) t)
      else Except.error ())
    pdConcat aligned

/-- `_union_tables` (lines 101-127): on any exception fall back to
`pd.concat(tables, sort=False)`, whose own exception propagates. -/
def unionTables (ts : List Df) : Except Unit Df :=
  match unionTablesBody ts with
  | .ok d => .ok d
  | .error _ => pdConcat ts

/-- Keyword arguments of `convert_to_csv` that the merge path reads. -/
structure MergeKwargs where
  merge_method : Option String := none
  clean_data : Option Bool := none
  skip_empty : Option Bool := none

/-- One cell through lines 140-143: `astype(str).str.strip()`,
`replace('nan','')`, then `replace('', pd.NA)`. -/
def cleanMergedCell (c : Cell) : Cell :=
  let t := pyStrip (c.getD "nan")
  let t := if t = "nan" then "" else t
  if t = "" then none else some t

/-- `_clean_merged_data` (lines 129-156): when cleaning is on (default),
`drop_duplicates()` first, then per-cell cleanup; when `skip_empty` is on
(default), drop all-NaN rows; `reset_index` is a no-op here.  The body
cannot raise, so the `except` branch returning `df` is dead. -/
def cleanMergedData (df : Df) (cleanData skipEmpty : Bool) : Df :=
  let d1 :=
    if cleanData then
      { cols := df.cols,
        rows := (dropDupFirst df.rows).map (fun r => r.map cleanMergedCell) }
    else df
  if skipEmpty then
    { cols := d1.cols, rows := d1.rows.filter (fun r => r.any (fun c => c.isSome)) }
  else d1

/-- The `try` body of `_merge_tables` (lines 75-94): concat by default,
union when requested, then `_clean_merged_data` with its defaults
`clean_data=True`, `skip_empty=True`. -/
def mergeTablesE (ts : List Df) (k : MergeKwargs) : Except Unit Df := do
  let mm := k.merge_method.getD "concat"
  let merged ←
    if mm = "concat" then pdConcat ts
    else if mm = "union" then unionTables ts
    else pdConcat ts
  Except.ok (cleanMergedData merged (k.clean_data.getD true) (k.skip_empty.getD true))

/-- `_merge_tables` (lines 64-99): total; on any exception it returns the
first input table, or an empty frame when the input list is empty. -/
def mergeTables (ts : List Df) (k : MergeKwargs) : Df :=
  match mergeTablesE ts k with
  | .ok d => d
  | .error _ => ts.headD { cols := [], rows := [] }

/-! `CSVConverter.validate_csv_data` (lines 322-380). -/

/-- The warnings the validator can append, as tagged values (the source
formats them into strings; the tag is the message identity). -/
inductive Warn where
  | emptyCols (cols : List String)
  | sparse
  | inconsistent (rows : List Nat)
  deriving DecidableEq, Repr

/-- The validation result dictionary. -/
structure ValReport where
  valid : Bool
  errors : List String
  warnings : List Warn
  row_count : Nat
  column_count : Nat
  empty_cell_percentage : Rat
  deriving DecidableEq

/-- The string values `pd.read_csv` turns into NaN by default (the subset
relevant here; the empty field is the one the repository produces). -/
def csvNaTokens : List String :=
  ["", "nan", "NaN", "NULL", "null", "NA", "N/A", "None", "n/a"]

/-- One CSV field through the default `read_csv` NA handling. -/
def parseCsvCell (s : String) : Cell :=
  if s ∈ csvNaTokens then none else some s

/-- `pd.read_csv(StringIO(csv_data))` for the plain comma-separated data
this repository produces: first non-blank line is the header, blank lines
are skipped, a row with more fields than the header raises, short rows are
padded with NaN.  Quoting is outside this model. -/
def pdReadCsv (csv : String) : Except Unit Df :=
  let lines := (pySplit '\n' csv).filter (fun l => l ≠ "")
  match lines with
  | [] => .error ()
  | h :: rest =>
    let cols := pySplit ',' h
    if rest.any (fun l => (pySplit ',' l).length > cols.length) then .error ()
    else .ok { cols := cols,
               rows := rest.map (fun l =>
                 let fs := (pySplit ',' l).map parseCsvCell
                 fs ++ List.replicate (cols.length - fs.length) none) }

/-- `df.isnull().sum().sum()`. -/
def emptyCellCount (d : Df) : Nat :=
  (d.rows.map (fun r => r.countP (fun c => c.isNone))).sum

/-- `validate_csv_data` (lines 322-380).  The sparsity test is
`empty_cells / total_cells > 0.8`, modelled exactly over the rationals;
`empty_cell_percentage` is `empty_cells / total_cells * 100`. -/
def validateCsvData (csv : String) : ValReport :=
  if csv = "" then
    { valid := false, errors := ["Empty CSV data"], warnings := [],
      row_count := 0, column_count := 0, empty_cell_percentage := 0 }
  else
    match pdReadCsv csv with
    | .error _ =>
      { valid := false, errors := ["CSV validation failed"], warnings := [],
        row_count := 0, column_count := 0, empty_cell_percentage := 0 }
    | .ok df =>
      let errors := if df.isEmpty then ["CSV contains no data rows"] else []
      let emptyColNames := ((List.range df.cols.length).filter
        (fun j => df.rows.all (fun r => (r.getD j none).isNone))).map
        (fun j => df.cols.getD j "")
      let totalCells := df.rows.length * df.cols.length
      let emptyCells := emptyCellCount df
      let w1 := if emptyColNames ≠ [] then [Warn.emptyCols emptyColNames] else []
      let w2 := if totalCells > 0 ∧ 5 * emptyCells > 4 * totalCells then [Warn.sparse]
                else []
      let lines := pySplit '\n' (pyStrip csv)
      let w3 :=
        if lines.length > 1 then
          let firstRowCols := (pySplit ',' (lines.headD "")).length
          let rest := lines.drop 1
          let inconsistent := (List.range rest.length).filterMap (fun i =>
            if (pySplit ',' (rest.getD i "")).length ≠ firstRowCols then some (i + 1)
            else none)
          if inconsistent ≠ [] then [Warn.inconsistent (inconsistent.take 5)] else []
        else []
      { valid := errors.isEmpty, errors := errors, warnings := w1 ++ w2 ++ w3,
        row_count := df.rows.length, column_count := df.cols.length,
        empty_cell_percentage :=
          if totalCells > 0 then ((emptyCells : Rat) / (totalCells : Rat)) * 100
          else 0 }

/-- Invariant of the per-frame accumulation loops: the running row total
is the sum of the row counts of the collected tables and the running
column total their maximum column count. -/
def TotInv (a : List Df × Nat × Nat) : Prop :=
  a.2.1 = (a.1.map (fun t => t.rows.length)).sum ∧
  a.2.2 = (a.1.map (fun t => t.cols.length)).foldl max 0

/-! Concrete data used by the counterexamples and witnesses. -/

/-- An environment where only PyPDF2 is available and the file exists;
the single page has no text. -/
def envOnlyPypdf : PdfEnv :=
  { fileExists := true, numPages := 1, tabulaAvail := false,
    camelotAvail := false, pdfplumberAvail := false,
    tabulaProbe := .error (), camelotProbe := .error (),
    tabulaRead := fun _ _ => .error (), camelotRead := fun _ _ => .error (),
    pageTables := fun _ => [], pageText := fun _ => "" }

/-- An environment where only pdfplumber is available and page 1 has no
tables at all. -/
def envPlumberNoTables : PdfEnv :=
  { fileExists := true, numPages := 1, tabulaAvail := false,
    camelotAvail := false, pdfplumberAvail := true,
    tabulaProbe := .error (), camelotProbe := .error (),
    tabulaRead := fun _ _ => .error (), camelotRead := fun _ _ => .error (),
    pageTables := fun _ => [], pageText := fun _ => "" }

/-- An environment for the C4 witness: nothing optional installed, one
page of plain text that parses into no table. -/
def envForTotals : PdfEnv :=
  { fileExists := true, numPages := 2, tabulaAvail := false,
    camelotAvail := false, pdfplumberAvail := false,
    tabulaProbe := .error (), camelotProbe := .error (),
    tabulaRead := fun _ _ => .error (), camelotRead := fun _ _ => .error (),
    pageTables := fun _ => [], pageText := fun _ => "plain text" }

/-- What `extract_data` returns in `envOnlyPypdf` when 'tabula' is
explicitly requested: a successful PyPDF2 result, with `extraction_method`
still echoing the request. -/
def rFallback : FinalResult :=
  { tables := [], total_rows := 0, total_columns := 0, method := "pypdf2",
    pages := none, raw_text := some [], accuracy := none,
    source_file := "doc.pdf", extraction_method := "tabula",
    pages_processed := "all" }

/-- What `extract_data` returns in `envForTotals` with default arguments. -/
def rTot : FinalResult :=
  { tables := [], total_rows := 0, total_columns := 0, method := "pypdf2",
    pages := none, raw_text := some ["plain text", "plain text"],
    accuracy := none, source_file := "f.pdf", extraction_method := "pypdf2",
    pages_processed := "all" }

/-- A single-column, single-row table used by the C8 scenario. -/
def tDup : Df := { cols := ["A"], rows := [[some "x"]] }

/-- First table of the C7 scenario: columns A, B with one row. -/
def tAB : Df := { cols := ["A", "B"], rows := [[some "a1", some "b1"]] }

/-- Second table of the C7 scenario: columns C, D with one row. -/
def tCD : Df := { cols := ["C", "D"], rows := [[some "c1", some "d1"]] }

/-- The 5-row, 3-column CSV of the C9 scenario: exactly 3 of the 15 data
cells are non-empty, so exactly 80 percent are empty. -/
def sparseCsv80 : String :=
  "A,B,C\nx,,\n,y,\n,,z\n,,\n,,\n"

/-- A 3-row, 3-column CSV with 8 of 9 cells empty (about 89 percent). -/
def sparseCsv89 : String :=
  "A,B,C\nx,,\n,,\n,,\n"

/-- The frame `pd.read_csv` produces from `sparseCsv89`. -/
def df89 : Df :=
  { cols := ["A", "B", "C"],
    rows := [[some "x", none, none], [none, none, none], [none, none, none]] }


/-! Theorems.  First the string-primitive lemmas. -/

theorem dropWhile_head_not {p : Char → Bool} :
    ∀ {l : List Char} {a : Char}, (l.dropWhile p).head? = some a → p a = false := by
  intro l
  induction l with
  | nil => intro a h; simp [List.dropWhile] at h
  | cons b t ih =>
    intro a h
    rw [List.dropWhile_cons] at h
    by_cases hb : p b
    · simp [hb] at h; exact ih h
    · simp [hb] at h
      subst h
      simpa using hb

theorem dropWhile_eq_self_of_head {p : Char → Bool} {l : List Char}
    (h : ∀ a, l.head? = some a → p a = false) : l.dropWhile p = l := by
  cases l with
  | nil => rfl
  | cons a t =>
    rw [List.dropWhile_cons]
    have := h a rfl
    simp [this]

theorem stripList_idem (l : List Char) : stripList (stripList l) = stripList l := by
  set w := Char.isWhitespace with hw
  set m := l.dropWhile w with hm
  set r := m.reverse.dropWhile w with hr
  have hrhead : ∀ a, r.head? = some a → w a = false := by
    intro a ha
    exact dropWhile_head_not (hr ▸ ha)
  have hmrev : m.reverse = m.reverse.takeWhile w ++ r := by
    rw [hr, List.takeWhile_append_dropWhile]
  have hrevhead : ∀ a, r.reverse.head? = some a → w a = false := by
    intro a ha
    rcases hR : r with _ | ⟨b, t⟩
    · rw [hR] at ha; simp at ha
    · have hm2 : m = r.reverse ++ (m.reverse.takeWhile w).reverse := by
        have := congrArg List.reverse hmrev
        simpa [List.reverse_append] using this
      have hhm : m.head? = some a := by
        rw [hm2, List.head?_append]
        have hne : r.reverse.head?.isSome := by
          rw [hR]; simp
        rw [ha]
        simp
      exact dropWhile_head_not (hm ▸ hhm)
  show stripList r.reverse = r.reverse
  unfold stripList
  rw [dropWhile_eq_self_of_head hrevhead, List.reverse_reverse,
    dropWhile_eq_self_of_head hrhead]

theorem pyStrip_idem (s : String) : pyStrip (pyStrip s) = pyStrip s := by
  unfold pyStrip
  rw [stripList_idem]

/-! Lemmas on the dataframe cleaner. -/

theorem cleanCell_fixed (c : Cell) :
    cleanCell (some (cleanCell c)) = cleanCell c := by
  unfold cleanCell
  simp only [Option.getD_some]
  by_cases h : pyStrip (c.getD "nan") = "nan"
  · simp [h]
    decide
  · simp [h, pyStrip_idem, h]

theorem map_range_getD {α β : Type} (l : List α) (d : α) (g : α → β) :
    (List.range l.length).map (fun j => g (l.getD j d)) = l.map g := by
  induction l with
  | nil => rfl
  | cons a t ih =>
    show (List.range (t.length + 1)).map (fun j => g ((a :: t).getD j d)) = g a :: t.map g
    rw [List.range_succ_eq_map]
    simp only [List.map_cons, List.map_map]
    refine congrArg₂ List.cons rfl ?_
    calc (List.range t.length).map ((fun j => g ((a :: t).getD j d)) ∘ Nat.succ)
        = (List.range t.length).map (fun j => g (t.getD j d)) := by
          apply List.map_congr_left
          intro j _
          rfl
      _ = t.map g := ih

theorem getD_isSome_of_lt {r : List Cell} {j : Nat}
    (hj : j < r.length) (h : ∀ c ∈ r, some (cleanCell c) = c) :
    (r.getD j none).isSome = true := by
  rw [List.getD_eq_getElem?_getD, List.getElem?_eq_getElem hj]
  have hc := h r[j] (List.getElem_mem hj)
  rw [← hc]
  rfl

theorem cleanDf_of_cleanShape {e : Df} (he : CleanShape e) : cleanDf e = e := by
  obtain ⟨hrows, hcols, hre, hce⟩ := he
  by_cases h0 : e.rows = []
  · have hc0 : e.cols = [] := hre h0
    cases e
    simp only at h0 hc0
    subst h0; subst hc0
    rfl
  · have hcne : e.cols ≠ [] := fun hc => h0 (hce hc)
    have hrfilter : rowsKept e = e.rows := by
      apply List.filter_eq_self.mpr
      intro r hr
      obtain ⟨hlen, hcells⟩ := hrows r hr
      have hrne : 0 < r.length := by
        rw [hlen]
        exact List.length_pos.mpr hcne
      rw [List.any_eq_true]
      have hne : r ≠ [] := by intro hh; rw [hh] at hrne; simp at hrne
      refine ⟨r.head hne, List.head_mem _, ?_⟩
      have := hcells _ (List.head_mem hne)
      rw [← this]; rfl
    have hkeep : colsKept e = List.range e.cols.length := by
      unfold colsKept
      apply List.filter_eq_self.mpr
      intro j hj
      rw [List.mem_range] at hj
      rw [hrfilter, List.any_eq_true]
      obtain ⟨r, hr⟩ := List.exists_mem_of_ne_nil _ h0
      obtain ⟨hlen, hcells⟩ := hrows r hr
      exact ⟨r, hr, getD_isSome_of_lt (by omega) hcells⟩
    have h1 : cleanDf e = ⟨e.cols.map pyStrip,
        e.rows.map (fun r => (List.range e.cols.length).map
          (fun j => some (cleanCell (r.getD j none))))⟩ := by
      unfold cleanDf
      rw [hkeep, hrfilter, map_range_getD]
    rw [h1]
    cases e with
    | mk cols rows =>
      simp only at hrows hcols ⊢
      congr 1
      · conv_rhs => rw [← List.map_id cols]
        apply List.map_congr_left
        intro s hs
        exact hcols s hs
      · conv_rhs => rw [← List.map_id rows]
        apply List.map_congr_left
        intro r hr
        obtain ⟨hlen, hcells⟩ := hrows r hr
        rw [← hlen]
        rw [show (List.range r.length).map (fun j => some (cleanCell (r.getD j none)))
              = r.map (fun c => some (cleanCell c)) from
            map_range_getD r none (fun c => some (cleanCell c))]
        simp only [id]
        conv_rhs => rw [← List.map_id r]
        apply List.map_congr_left
        intro c hc
        exact hcells c hc

theorem cleanShape_cleanDf (d : Df) (hd : d.Rect) : CleanShape (cleanDf d) := by
  refine ⟨?_, ?_, ?_, ?_⟩
  · intro r hr
    obtain ⟨r0, hr0, rfl⟩ := List.mem_map.mp hr
    refine ⟨by simp [cleanDf], ?_⟩
    intro c hc
    obtain ⟨j, hj, rfl⟩ := List.mem_map.mp hc
    exact congrArg some (cleanCell_fixed _)
  · intro s hs
    obtain ⟨j, hj, rfl⟩ := List.mem_map.mp hs
    exact pyStrip_idem _
  · intro h
    have h1 : rowsKept d = [] := List.map_eq_nil_iff.mp h
    show List.map _ _ = []
    rw [List.map_eq_nil_iff]
    unfold colsKept
    rw [List.filter_eq_nil_iff]
    intro j hj
    rw [h1]
    simp
  · intro h
    have hkeepnil : colsKept d = [] := List.map_eq_nil_iff.mp h
    show List.map _ _ = []
    rw [List.map_eq_nil_iff]
    by_contra h1
    obtain ⟨r, hr⟩ := List.exists_mem_of_ne_nil _ h1
    obtain ⟨hrmem, hrany⟩ := List.mem_filter.mp hr
    rw [List.any_eq_true] at hrany
    obtain ⟨c, hcmem, hcsome⟩ := hrany
    obtain ⟨j, hjc⟩ := List.mem_iff_getElem.mp hcmem
    obtain ⟨hjlt, hjc⟩ := hjc
    have hj2 : j < d.cols.length := by
      have := hd r hrmem
      omega
    have hmem : j ∈ colsKept d := by
      unfold colsKept
      rw [List.mem_filter]
      refine ⟨List.mem_range.mpr hj2, ?_⟩
      rw [List.any_eq_true]
      refine ⟨r, hr, ?_⟩
      rw [List.getD_eq_getElem?_getD, List.getElem?_eq_getElem hjlt, hjc]
      exact hcsome
    rw [hkeepnil] at hmem
    exact absurd hmem (List.not_mem_nil _)

/-- C6: table normalization (`PDFExtractor._clean_dataframe`) is
idempotent: it drops all-empty rows and columns, trims textual cells, and
coerces NaN and the literal text "nan" to the empty string; applying it to
an already-cleaned (rectangular) frame changes nothing. -/
theorem normalize_idempotent (d : Df) (hd : d.Rect) :
    cleanDf (cleanDf d) = cleanDf d :=
  cleanDf_of_cleanShape (cleanShape_cleanDf d hd)

/-- Witness for C6 at a concrete frame with whitespace, NaN and "nan"
cells. -/
theorem normalize_idempotent_witness :
    (Df.Rect ⟨[" A ", "B"], [[some " x ", none], [none, some "nan"]]⟩) ∧
    cleanDf (cleanDf ⟨[" A ", "B"], [[some " x ", none], [none, some "nan"]]⟩)
      = cleanDf ⟨[" A ", "B"], [[some " x ", none], [none, some "nan"]]⟩ :=
  ⟨by decide, normalize_idempotent _ (by decide)⟩


/-! Lemmas on the page-selector parsers. -/

theorem mapM_ok_of_forall {α β : Type} (l : List α) (g : α → Except Unit β) (h : α → β)
    (hf : ∀ x ∈ l, g x = .ok (h x)) : l.mapM g = .ok (l.map h) := by
  induction l with
  | nil => rfl
  | cons a t ih =>
    rw [List.mapM_cons, hf a (List.mem_cons_self a t)]
    rw [ih (fun x hx => hf x (List.mem_cons_of_mem a hx))]
    rfl

theorem intRange_map_toNat (st b : Int) (hst : 0 ≤ st) :
    (intRange st b).map Int.toNat = List.range' st.toNat (b - st).toNat := by
  unfold intRange
  rw [List.map_map, List.range'_eq_map_range]
  apply List.map_congr_left
  intro k hk
  simp only [Function.comp_apply]
  omega

theorem pySlice_eq (n : Nat) (st en : Int) (hst : 0 ≤ st) (hen : 0 ≤ en) :
    pySlice n st en = List.range' st.toNat (min en (n : Int) - st).toNat := by
  unfold pySlice pySliceBound
  rw [if_neg (by omega), if_neg (by omega)]
  by_cases h : st.toNat ≤ n
  · have h1 : min st.toNat n = st.toNat := by omega
    rw [h1]
    congr 1
    omega
  · have h1 : min st.toNat n = n := by omega
    rw [h1]
    have h2 : min en.toNat n - n = 0 := by omega
    have h3 : (min en ↑n - st).toNat = 0 := by omega
    rw [h2, h3]
    rfl

theorem intRange_mapM_pyIndex (n : Nat) (st en : Int) (hst : 0 ≤ st) (hen : 0 ≤ en) :
    (intRange st (min en (n : Int))).mapM (pyIndex n) = Except.ok (pySlice n st en) := by
  rw [mapM_ok_of_forall _ _ Int.toNat ?hall]
  · rw [intRange_map_toNat _ _ hst, pySlice_eq n st en hst hen]
  case hall =>
    intro x hx
    unfold intRange at hx
    rw [List.mem_map] at hx
    obtain ⟨k, hk, rfl⟩ := hx
    rw [List.mem_range] at hk
    unfold pyIndex
    rw [if_pos (by omega), if_pos (by omega)]

/-- C5 counterexample: the selector "all" is in the documented selector
syntax and canonically denotes every page, yet the pdfplumber and PyPDF2
backends raise on it (ValueError from `int('all')`) instead of receiving a
pre-normalized page set — no normalization happens before the backends
run, refuting the claim at this concrete input. -/
theorem selector_all_not_normalized :
    pdfplumberPages (some "all") 3 = .error () ∧
    pypdf2Pages (some "all") 3 = .error () ∧
    canonicalPages "all" 3 = [0, 1, 2] := by
  decide

/-- C5 amended: page selectors are parsed by each backend separately, not
normalized centrally; on comma lists (no dash) and on well-formed
`start-end` ranges whose start is at least 1 (or empty) and whose end part
is a number or 'end', the two inline parsers (pdfplumber and PyPDF2)
process identical 0-based page sets, so those selector forms have the same
semantics across these two backends; tabula and camelot instead receive
the raw selector string. -/
theorem pages_parsers_agree (s : String) (n : Nat)
    (h : pyContains s '-' = false ∨
      (pyContains s '-' = true ∧ ∃ a b st en, pySplit '-' s = [a, b] ∧
        parseStartTok a = .ok st ∧ 0 ≤ st ∧ parseEndTok n b = .ok en ∧ 0 ≤ en)) :
    pdfplumberPages (some s) n = pypdf2Pages (some s) n := by
  rcases h with h | ⟨hc, a, b, st, en, hsplit, hst, hst0, hen, hen0⟩
  · simp only [pdfplumberPages, pypdf2Pages, h]
    rfl
  · simp only [pdfplumberPages, pypdf2Pages, hc, hsplit]
    by_cases hs : s = ""
    · simp [hs]
    · simp only [hs, if_false, if_true]
      rw [hst, hen]
      show Except.ok (pySlice n st en) = (intRange st (min en (n : Int))).mapM (pyIndex n)
      rw [intRange_mapM_pyIndex n st en hst0 hen0]

/-- Witness for the amended C5 theorem on the range selector "2-3" over 4
pages (both hypothesis forms are exercised by `decide`). -/
theorem pages_parsers_agree_witness :
    (pyContains "2-3" '-' = true ∧ pySplit '-' "2-3" = ["2", "3"] ∧
      parseStartTok "2" = .ok 1 ∧ parseEndTok 4 "3" = .ok 3) ∧
    pdfplumberPages (some "2-3") 4 = pypdf2Pages (some "2-3") 4 ∧
    pdfplumberPages (some "2-3") 4 = .ok [1, 2] :=
  ⟨by decide,
   pages_parsers_agree "2-3" 4
     (Or.inr ⟨by decide, "2", "3", 1, 3, by decide, by decide, by decide,
       by decide, by decide⟩),
   by decide⟩

/-! Auto-detection (claim C2). -/

theorem detectCamelot_eq (env : PdfEnv) :
    detectCamelotStage env =
      if env.camelotAvail && camelotProbeHit env then "camelot"
      else detectPlumberStage env := by
  unfold detectCamelotStage camelotProbeHit
  cases h : env.camelotAvail
  · simp
  · cases hp : env.camelotProbe with
    | ok ts => cases ts <;> simp
    | error e => simp

/-- C2 counterexample: in an environment where only pdfplumber is
installed and page 1 has no tables at all, the implemented detector still
returns 'pdfplumber' (it never probes pdfplumber), while the spec's
probe-based selector would fall back to 'pypdf2' — the detector does not
implement the spec's rule. -/
theorem auto_detect_diverges_from_spec_probe :
    detectBestMethod envPlumberNoTables = "pdfplumber" ∧
    specDetect envPlumberNoTables = "pypdf2" := by
  decide

/-- C2 amended: auto-detection probes page 1 with tabula (hit = nonempty
list whose first frame is non-empty), then camelot (hit = nonempty table
list, frames not inspected), swallowing probe exceptions; pdfplumber is
returned whenever merely installed, without probing; otherwise PyPDF2. -/
theorem auto_detect_matches_amended_description (env : PdfEnv) :
    detectBestMethod env = specDetectAmended env := by
  have hplumb : detectPlumberStage env =
      if env.pdfplumberAvail then "pdfplumber" else "pypdf2" := rfl
  unfold detectBestMethod specDetectAmended tabulaProbeHit
  rw [← hplumb, ← detectCamelot_eq]
  cases h1 : env.tabulaAvail
  · simp
  · cases hp : env.tabulaProbe with
    | ok ts =>
      cases ts with
      | nil => simp
      | cons t rest => cases ht : t.isEmpty <;> simp [ht]
    | error e => simp


theorem except_bind_ok {α β : Type} (x : Except Unit α) (f : α → Except Unit β) (b : β) :
    (x >>= f) = .ok b ↔ ∃ a, x = .ok a ∧ f a = .ok b := by
  cases x <;> simp [Bind.bind, Except.bind]

/-- C3: an exception raised by the chosen backend during the real
extraction is not swallowed: `extract_data` fails exactly when the file is
missing or the dispatched backend extraction raises (the outer handler
re-raises); auto-detection probing errors never make the call fail, since
detection is total. -/
theorem extraction_error_propagates (env : PdfEnv) (path : String) (k : Kwargs) :
    extractData env path k = .error () ↔
    (env.fileExists = false ∨ dispatchExtract env k = .error ()) := by
  unfold extractData
  cases h : env.fileExists
  · simp [h]
  · cases hd : dispatchExtract env k <;> simp [h, hd, Except.map]

theorem totInv_append (a : List Df × Nat × Nat) (c : Df) (h : TotInv a) :
    TotInv (a.1 ++ [c], a.2.1 + c.rows.length, max a.2.2 c.cols.length) := by
  obtain ⟨h1, h2⟩ := h
  constructor
  · show a.2.1 + c.rows.length = ((a.1 ++ [c]).map (fun t => t.rows.length)).sum
    simp [h1]
  · show max a.2.2 c.cols.length = ((a.1 ++ [c]).map (fun t => t.cols.length)).foldl max 0
    simp [h2, List.foldl_append]

theorem totInv_foldl {β : Type} (step : List Df × Nat × Nat → β → List Df × Nat × Nat)
    (hstep : ∀ a b, TotInv a → TotInv (step a b)) :
    ∀ (l : List β) (a : List Df × Nat × Nat), TotInv a → TotInv (l.foldl step a) := by
  intro l
  induction l with
  | nil => intro a h; exact h
  | cons b t ih => intro a h; exact ih _ (hstep a b h)

theorem totInv_processTables (dfs : List Df) : TotInv (processTables dfs) := by
  unfold processTables
  refine totInv_foldl _ ?_ dfs ([], 0, 0) ⟨rfl, rfl⟩
  intro a df h
  by_cases hde : df.isEmpty
  · simp only [hde, if_true]
    exact h
  · simp only [hde, if_false, stepClean]
    exact totInv_append a (cleanDf df) h

theorem totInv_plumbStep (a : List Df × Nat × Nat) (td : List (List Cell))
    (h : TotInv a) : TotInv (plumbStep a td) := by
  unfold plumbStep
  by_cases h1 : td = []
  · simp only [h1, if_true]; exact h
  · simp only [h1, if_false]
    by_cases h2 : (cleanDf (rawDf td)).isEmpty
    · simp only [h2, if_true]; exact h
    · simp only [h2, if_false]
      exact totInv_append a (cleanDf (rawDf td)) h

theorem extractWithTabula_spec (env : PdfEnv) (k : Kwargs) (o : ExtractOut)
    (h : extractWithTabula env k = .ok o) :
    o.method = "tabula" ∧
    o.total_rows = (o.tables.map (fun t => t.rows.length)).sum ∧
    o.total_columns = (o.tables.map (fun t => t.cols.length)).foldl max 0 := by
  unfold extractWithTabula at h
  rw [except_bind_ok] at h
  obtain ⟨dfs, hdfs, h⟩ := h
  by_cases hd : dfs = []
  · rw [if_pos hd] at h
    cases h
    exact ⟨rfl, rfl, rfl⟩
  · rw [if_neg hd] at h
    have hpt := totInv_processTables dfs
    rcases hrw : processTables dfs with ⟨ts, tr, mc⟩
    rw [hrw] at h hpt
    cases h
    exact ⟨rfl, hpt.1, hpt.2⟩


theorem extractWithCamelot_spec (env : PdfEnv) (k : Kwargs) (o : ExtractOut)
    (h : extractWithCamelot env k = .ok o) :
    o.method = "camelot" ∧
    o.total_rows = (o.tables.map (fun t => t.rows.length)).sum ∧
    o.total_columns = (o.tables.map (fun t => t.cols.length)).foldl max 0 := by
  unfold extractWithCamelot at h
  rw [except_bind_ok] at h
  obtain ⟨tl, htl, h⟩ := h
  by_cases hd : tl = []
  · rw [if_pos hd] at h
    cases h
    exact ⟨rfl, rfl, rfl⟩
  · rw [if_neg hd] at h
    have hpt := totInv_processTables (tl.map (fun x => x.1))
    rcases hrw : processTables (tl.map (fun x => x.1)) with ⟨ts, tr, mc⟩
    rw [hrw] at h hpt
    cases h
    exact ⟨rfl, hpt.1, hpt.2⟩

theorem extractWithPdfplumber_spec (env : PdfEnv) (k : Kwargs) (o : ExtractOut)
    (h : extractWithPdfplumber env k = .ok o) :
    o.method = "pdfplumber" ∧
    o.total_rows = (o.tables.map (fun t => t.rows.length)).sum ∧
    o.total_columns = (o.tables.map (fun t => t.cols.length)).foldl max 0 := by
  unfold extractWithPdfplumber at h
  rw [except_bind_ok] at h
  obtain ⟨idxs, hidxs, h⟩ := h
  have hpt : TotInv (idxs.foldl
      (fun acc i => (env.pageTables i).foldl plumbStep acc) ([], 0, 0)) := by
    refine totInv_foldl _ ?_ idxs ([], 0, 0) ⟨rfl, rfl⟩
    intro a i ha
    exact totInv_foldl plumbStep totInv_plumbStep _ a ha
  rcases hrw : idxs.foldl (fun acc i => (env.pageTables i).foldl plumbStep acc)
      ([], 0, 0) with ⟨ts, tr, mc⟩
  rw [hrw] at h hpt
  cases h
  exact ⟨rfl, hpt.1, hpt.2⟩

theorem extractWithPypdf2_spec (env : PdfEnv) (k : Kwargs) (o : ExtractOut)
    (h : extractWithPypdf2 env k = .ok o) :
    o.method = "pypdf2" ∧
    o.total_rows = (o.tables.map (fun t => t.rows.length)).sum ∧
    o.total_columns = (o.tables.map (fun t => t.cols.length)).foldl max 0 := by
  unfold extractWithPypdf2 at h
  rw [except_bind_ok] at h
  obtain ⟨idxs, hidxs, h⟩ := h
  cases h
  exact ⟨rfl, rfl, rfl⟩

/-- C4: on every successful extraction the result's `method` key names the
backend that actually ran (each backend stamps its own name and the
metadata update does not overwrite it), `total_rows` is the sum of the row
counts of the produced tables and `total_columns` their maximum column
count. -/
theorem result_metadata_correct (env : PdfEnv) (path : String) (k : Kwargs)
    (r : FinalResult) (h : extractData env path k = .ok r) :
    r.method = usedMethod env k ∧
    r.total_rows = (r.tables.map (fun t => t.rows.length)).sum ∧
    r.total_columns = (r.tables.map (fun t => t.cols.length)).foldl max 0 := by
  unfold extractData at h
  cases hf : env.fileExists
  · rw [hf] at h; simp at h
  · rw [hf] at h
    simp only [if_true] at h
    rcases hd : dispatchExtract env k with e | o
    · rw [hd] at h; simp [Except.map] at h
    · rw [hd] at h
      simp only [Except.map] at h
      cases h
      unfold dispatchExtract at hd
      unfold usedMethod
      by_cases h1 : (decide (resolveMethod env k = "tabula") && env.tabulaAvail) = true
      · rw [if_pos h1] at hd
        rw [if_pos h1]
        exact extractWithTabula_spec env k o hd
      · rw [if_neg h1] at hd
        rw [if_neg h1]
        by_cases h2 : (decide (resolveMethod env k = "camelot") && env.camelotAvail) = true
        · rw [if_pos h2] at hd
          rw [if_pos h2]
          exact extractWithCamelot_spec env k o hd
        · rw [if_neg h2] at hd
          rw [if_neg h2]
          by_cases h3 : (decide (resolveMethod env k = "pdfplumber") && env.pdfplumberAvail) = true
          · rw [if_pos h3] at hd
            rw [if_pos h3]
            exact extractWithPdfplumber_spec env k o hd
          · rw [if_neg h3] at hd
            rw [if_neg h3]
            exact extractWithPypdf2_spec env k o hd

/-- Witness for C4 in a concrete environment (PyPDF2 path, two text
pages that parse into no tables). -/
theorem result_metadata_correct_witness :
    (extractData envForTotals "f.pdf" {} = .ok rTot) ∧
    (rTot.method = usedMethod envForTotals {} ∧
     rTot.total_rows = (rTot.tables.map (fun t => t.rows.length)).sum ∧
     rTot.total_columns = (rTot.tables.map (fun t => t.cols.length)).foldl max 0) :=
  ⟨by decide, result_metadata_correct envForTotals "f.pdf" {} rTot (by decide)⟩

/-- C1 counterexample: with tabula not installed and `method='tabula'`
explicitly requested, `extract_data` does not raise any error — it
succeeds with a PyPDF2 fallback result, refuting the claimed
`BackendUnavailable` behavior. -/
theorem explicit_tabula_unavailable_returns_ok :
    extractData envOnlyPypdf "doc.pdf" { method := some "tabula" } = .ok rFallback ∧
    rFallback.method = "pypdf2" := by
  decide

/-- C1 amended: when an explicitly requested backend (not "auto") is not
available, the call silently falls back to the PyPDF2 raw-text extraction;
no error is raised, and the result's `extraction_method` echoes the
requested name while `method` reports 'pypdf2'. -/
theorem explicit_unavailable_falls_back_to_pypdf2 (env : PdfEnv) (path : String)
    (k : Kwargs) (m : String) (h1 : env.fileExists = true) (h2 : k.method = some m)
    (h3 : m = "tabula" ∨ m = "camelot" ∨ m = "pdfplumber")
    (h4 : methodAvailable env m = false) :
    extractData env path k = (extractWithPypdf2 env k).map (addMeta path m) := by
  have hm : resolveMethod env k = m := by
    unfold resolveMethod
    rw [h2]
    rcases h3 with h | h | h <;> subst h <;> rfl
  unfold extractData dispatchExtract
  rw [h1, hm]
  simp only [if_true]
  rcases h3 with h | h | h <;> subst h <;>
    unfold methodAvailable at h4 <;> simp at h4 <;> simp [h4]

/-- Witness for the amended C1 theorem with an explicit 'camelot' request
in an environment without camelot. -/
theorem explicit_unavailable_falls_back_witness :
    (envOnlyPypdf.fileExists = true ∧
     ({ method := some "camelot" } : Kwargs).method = some "camelot" ∧
     methodAvailable envOnlyPypdf "camelot" = false) ∧
    extractData envOnlyPypdf "p.pdf" { method := some "camelot" } =
      (extractWithPypdf2 envOnlyPypdf { method := some "camelot" }).map
        (addMeta "p.pdf" "camelot") :=
  ⟨⟨rfl, rfl, by decide⟩,
   explicit_unavailable_falls_back_to_pypdf2 envOnlyPypdf "p.pdf"
     { method := some "camelot" } "camelot" rfl rfl (Or.inr (Or.inl rfl)) (by decide)⟩



theorem dedup_foldl_no_new {α : Type} [DecidableEq α] (l acc : List α)
    (h : ∀ x ∈ l, x ∈ acc) :
    l.foldl (fun acc a => if a ∈ acc then acc else acc ++ [a]) acc = acc := by
  induction l generalizing acc with
  | nil => rfl
  | cons a t ih =>
    rw [List.foldl_cons, if_pos (h a (List.mem_cons_self a t))]
    exact ih acc (fun x hx => h x (List.mem_cons_of_mem a hx))

theorem dedup_foldl_all_new {α : Type} [DecidableEq α] (l : List α) :
    ∀ acc, (∀ x ∈ l, x ∉ acc) → l.Nodup →
    l.foldl (fun acc a => if a ∈ acc then acc else acc ++ [a]) acc = acc ++ l := by
  induction l with
  | nil => intro acc _ _; simp
  | cons a t ih =>
    intro acc h hnd
    rw [List.foldl_cons, if_neg (h a (List.mem_cons_self a t))]
    rw [ih (acc ++ [a]) ?_ (List.nodup_cons.mp hnd).2]
    · simp
    · intro x hx
      simp only [List.mem_append, List.mem_singleton]
      rintro (hax | rfl)
      · exact h x (List.mem_cons_of_mem a hx) hax
      · exact (List.nodup_cons.mp hnd).1 hx

theorem dropDupFirst_append_subset {α : Type} [DecidableEq α] (l₁ l₂ : List α)
    (hn : l₁.Nodup) (h : ∀ x ∈ l₂, x ∈ l₁) :
    dropDupFirst (l₁ ++ l₂) = l₁ := by
  unfold dropDupFirst
  rw [List.foldl_append]
  rw [dedup_foldl_all_new l₁ [] (by simp) hn]
  simp only [List.nil_append]
  exact dedup_foldl_no_new l₂ l₁ h

theorem dedup_foldl_nodup {α : Type} [DecidableEq α] (l : List α) :
    ∀ acc : List α, acc.Nodup →
    (l.foldl (fun acc a => if a ∈ acc then acc else acc ++ [a]) acc).Nodup := by
  induction l with
  | nil => intro acc h; exact h
  | cons a t ih =>
    intro acc h
    rw [List.foldl_cons]
    by_cases ha : a ∈ acc
    · rw [if_pos ha]; exact ih acc h
    · rw [if_neg ha]
      refine ih _ ?_
      rw [List.nodup_append]
      refine ⟨h, List.nodup_singleton a, ?_⟩
      intro x hx hx1
      rw [List.mem_singleton] at hx1
      subst hx1
      exact ha hx

theorem dropDupFirst_nodup {α : Type} [DecidableEq α] (l : List α) :
    (dropDupFirst l).Nodup :=
  dedup_foldl_nodup l [] List.nodup_nil

theorem insertStr_perm (a : String) (l : List String) :
    (insertStr a l).Perm (a :: l) := by
  induction l with
  | nil => exact List.Perm.refl _
  | cons b t ih =>
    unfold insertStr
    by_cases h : pyStrLe a b
    · rw [if_pos h]
    · rw [if_neg h]
      exact (List.Perm.cons b ih).trans (List.Perm.swap a b t)

theorem sortStrs_perm (l : List String) : (sortStrs l).Perm l := by
  induction l with
  | nil => exact List.Perm.refl _
  | cons a t ih =>
    show (insertStr a (sortStrs t)).Perm (a :: t)
    exact (insertStr_perm _ _).trans (List.Perm.cons a ih)

theorem unionCols_nodup (ts : List Df) : (unionCols ts).Nodup := by
  unfold unionCols
  exact ((sortStrs_perm _).nodup_iff).mpr (dropDupFirst_nodup _)

theorem findIdx_nodup_self (C : List String) (hC : C.Nodup) :
    ∀ (i : Nat), (hi : i < C.length) → ∀ (k : Nat),
      List.findIdx? (fun x => x == C[i]) C k = some (k + i) := by
  induction C with
  | nil => intro i hi; exact absurd hi (by simp)
  | cons c t ih =>
    intro i hi k
    cases i with
    | zero =>
      rw [List.findIdx?_cons]
      simp
    | succ j =>
      have hjt : j < t.length := by
        simp at hi
        omega
      rw [List.findIdx?_cons]
      have hne : (c == (c :: t)[j + 1]) = false := by
        simp only [List.getElem_cons_succ]
        have hmem : t[j] ∈ t := List.getElem_mem hjt
        have hct : c ∉ t := (List.nodup_cons.mp hC).1
        refine beq_eq_false_iff_ne.mpr ?_
        intro hcc
        apply hct
        rw [hcc]
        exact hmem
      simp only [List.getElem_cons_succ] at hne
      simp only [List.getElem_cons_succ]
      rw [if_neg (by simp [hne])]
      have := ih (List.nodup_cons.mp hC).2 j hjt (k + 1)
      simp only [List.getElem_cons_succ] at this ⊢
      rw [this]
      congr 1
      omega

theorem realign_self (C : List String) (hC : C.Nodup) (r : List Cell)
    (hr : r.length = C.length) (fill : Cell) :
    C.map (fun name => match C.findIdx? (fun x => x == name) with
      | some j => r.getD j none
      | none => fill) = r := by
  apply List.ext_getElem
  · simp [hr]
  · intro i h1 h2
    rw [List.getElem_map]
    have hi : i < C.length := by simpa using h1
    rw [findIdx_nodup_self C hC i hi 0]
    simp only [Nat.zero_add]
    rw [List.getD_eq_getElem?_getD, List.getElem?_eq_getElem (by omega)]
    rfl

theorem pdConcat_aligned (c : List String) (hc : c.Nodup) (ds : List Df)
    (hne : ds ≠ []) (hcols : ∀ d ∈ ds, d.cols = c)
    (hrect : ∀ d ∈ ds, ∀ r ∈ d.rows, r.length = c.length) :
    pdConcat ds = .ok { cols := c, rows := (ds.map (fun d => d.rows)).flatten } := by
  have key : pdConcat ds = Except.ok
      { cols := dropDupFirst ((ds.map (fun t => t.cols)).flatten),
        rows := (ds.map (fun t => t.rows.map (fun r =>
          (dropDupFirst ((ds.map (fun t => t.cols)).flatten)).map (fun name =>
            match t.cols.findIdx? (fun x => x == name) with
            | some j => r.getD j none
            | none => none)))).flatten } := by
    unfold pdConcat
    rw [if_neg hne]
  have hC : dropDupFirst ((ds.map (fun t => t.cols)).flatten) = c := by
    rcases ds with _ | ⟨d, rest⟩
    · exact absurd rfl hne
    · rw [List.map_cons, List.flatten_cons, hcols d (List.mem_cons_self d rest)]
      apply dropDupFirst_append_subset c _ hc
      intro x hx
      rw [List.mem_flatten] at hx
      obtain ⟨ll, hll, hxl⟩ := hx
      rw [List.mem_map] at hll
      obtain ⟨d2, hd2, rfl⟩ := hll
      rw [hcols d2 (List.mem_cons_of_mem d hd2)] at hxl
      exact hxl
  rw [key, hC]
  congr 1
  congr 1
  refine congrArg List.flatten ?_
  apply List.map_congr_left
  intro d hd
  rw [hcols d hd]
  conv_rhs => rw [← List.map_id d.rows]
  apply List.map_congr_left
  intro r hr
  exact realign_self c hc r (hrect d hd r hr) none


theorem union_body_spec (ts : List Df) (h1 : ts ≠ []) (h2 : ∀ t ∈ ts, t.cols.Nodup) :
    unionTablesBody ts = .ok
      { cols := unionCols ts,
        rows := (ts.map (fun t => (reindexDf (unionCols ts) t).rows)).flatten } := by
  unfold unionTablesBody
  rw [if_neg h1]
  rw [show (ts.mapM (fun t =>
      if t.cols.Nodup then Except.ok (reindexDf (unionCols ts) t)
      else Except.error ()))
    = Except.ok (ts.map (fun t => reindexDf (unionCols ts) t)) from
    mapM_ok_of_forall ts _ _ (fun t ht => by rw [if_pos (h2 t ht)])]
  show pdConcat (ts.map (fun t => reindexDf (unionCols ts) t)) = _
  rw [pdConcat_aligned (unionCols ts) (unionCols_nodup ts) _ ?hne ?hcols ?hrect]
  · rw [List.map_map]
    rfl
  case hne =>
    intro h
    rw [List.map_eq_nil_iff] at h
    exact h1 h
  case hcols =>
    intro d hd
    rw [List.mem_map] at hd
    obtain ⟨t, ht, rfl⟩ := hd
    rfl
  case hrect =>
    intro d hd r hr
    rw [List.mem_map] at hd
    obtain ⟨t, ht, rfl⟩ := hd
    unfold reindexDf at hr
    simp only [List.mem_map] at hr
    obtain ⟨r0, hr0, rfl⟩ := hr
    simp

/-- C7: merging a non-empty list of (duplicate-free-column) tables under
the union policy yields the sorted union of all column names as the column
set, with every table reindexed to it (absent cells filled with the empty
string) and rows concatenated in input order. -/
theorem union_by_column_spec (ts : List Df) (h1 : ts ≠ [])
    (h2 : ∀ t ∈ ts, t.cols.Nodup) :
    unionTables ts = .ok
      { cols := unionCols ts,
        rows := (ts.map (fun t => (reindexDf (unionCols ts) t).rows)).flatten } := by
  unfold unionTables
  rw [union_body_spec ts h1 h2]

/-- Witness for C7: the spec's concrete scenario — disjoint column sets
A,B and C,D on two single rows give sorted columns A,B,C,D and two rows,
each with two empty-string cells. -/
theorem union_by_column_spec_witness :
    (([tAB, tCD] : List Df) ≠ [] ∧ ∀ t ∈ ([tAB, tCD] : List Df), t.cols.Nodup) ∧
    unionTables [tAB, tCD] = .ok
      { cols := ["A", "B", "C", "D"],
        rows := [[some "a1", some "b1", some "", some ""],
                 [some "", some "", some "c1", some "d1"]] } :=
  ⟨⟨by decide, by decide⟩,
   (union_by_column_spec [tAB, tCD] (by decide) (by decide)).trans (by decide)⟩

theorem cleanMergedData_empty (b1 b2 : Bool) :
    cleanMergedData { cols := [], rows := [] } b1 b2 = { cols := [], rows := [] } := by
  cases b1 <;> cases b2 <;> rfl

/-- C10: `_merge_tables` is total (it returns a `Df`, never an
exception); when the underlying merge computation raises — as
concatenating an empty list does — the error is caught and the first input
table is returned, or the empty frame when the input list is empty; the
empty list also yields the empty frame on the union path, where no
exception occurs. -/
theorem merge_total_with_fallback (ts : List Df) (k : MergeKwargs) :
    (mergeTablesE ts k = .error () →
      mergeTables ts k = ts.headD { cols := [], rows := [] }) ∧
    mergeTables [] k = { cols := [], rows := [] } := by
  constructor
  · intro h
    unfold mergeTables
    rw [h]
  · unfold mergeTables mergeTablesE
    by_cases hm1 : k.merge_method.getD "concat" = "concat"
    · rw [if_pos hm1]
      rfl
    · rw [if_neg hm1]
      by_cases hm2 : k.merge_method.getD "concat" = "union"
      · rw [if_pos hm2]
        show cleanMergedData { cols := [], rows := [] }
          (k.clean_data.getD true) (k.skip_empty.getD true) = { cols := [], rows := [] }
        exact cleanMergedData_empty _ _
      · rw [if_neg hm2]
        rfl


/-- Witness for C10: the empty input list under the default 'concat'
policy makes `pd.concat` raise, and the merger returns the empty frame. -/
theorem merge_total_with_fallback_witness :
    (mergeTablesE [] ({} : MergeKwargs) = .error ()) ∧
    mergeTables [] ({} : MergeKwargs) = { cols := [], rows := [] } :=
  ⟨by decide, (merge_total_with_fallback [] {}).1 (by decide)⟩

/-- C8 counterexample: merging two identical single-row tables with no
cleaning option at all returns a single row — duplicates are removed by
default (`clean_data` defaults to True), refuting the claim that an
unstated cleaning option retains duplicates. -/
theorem merge_dedups_by_default :
    mergeTables [tDup, tDup] {} = { cols := ["A"], rows := [[some "x"]] } ∧
    (mergeTables [tDup, tDup] {}).rows.length = 1 := by
  decide

/-- C8 amended: duplicate-row removal follows the `clean_data` flag,
which defaults to True: with no option supplied the duplicate row is
dropped, and it is retained only when the caller explicitly passes
`clean_data=False`.  (Stated for any clean cell text `s`.) -/
theorem dedup_follows_clean_flag (s : String)
    (h1 : pyStrip s = s) (h2 : s ≠ "") (h3 : s ≠ "nan") :
    (mergeTables [{ cols := ["A"], rows := [[some s]] },
                  { cols := ["A"], rows := [[some s]] }] {}).rows = [[some s]] ∧
    (mergeTables [{ cols := ["A"], rows := [[some s]] },
                  { cols := ["A"], rows := [[some s]] }]
      { clean_data := some false }).rows = [[some s], [some s]] := by
  have hconcat : pdConcat [{ cols := ["A"], rows := [[some s]] },
      { cols := ["A"], rows := [[some s]] }] =
      .ok { cols := ["A"], rows := [[some s], [some s]] } := by
    unfold pdConcat
    rw [if_neg (by simp)]
    rfl
  have hcell : cleanMergedCell (some s) = some s := by
    unfold cleanMergedCell
    simp only [Option.getD_some, h1]
    rw [if_neg h3, if_neg h2]
  have hdd : dropDupFirst [[some s], [some s]] = [[some s]] := by
    unfold dropDupFirst
    simp
  have hclean : cleanMergedData { cols := ["A"], rows := [[some s], [some s]] }
      true true = { cols := ["A"], rows := [[some s]] } := by
    unfold cleanMergedData
    simp only [if_true, hdd]
    simp [hcell]
  have hnoclean : cleanMergedData { cols := ["A"], rows := [[some s], [some s]] }
      false true = { cols := ["A"], rows := [[some s], [some s]] } := by
    unfold cleanMergedData
    simp
  constructor
  · have hE : mergeTablesE [{ cols := ["A"], rows := [[some s]] },
        { cols := ["A"], rows := [[some s]] }] {} =
        .ok (cleanMergedData { cols := ["A"], rows := [[some s], [some s]] } true true) := by
      show (pdConcat [{ cols := ["A"], rows := [[some s]] },
          { cols := ["A"], rows := [[some s]] }] >>= fun merged =>
          Except.ok (cleanMergedData merged true true)) = _
      rw [hconcat]
      rfl
    show (mergeTables _ _).rows = _
    unfold mergeTables
    rw [hE, hclean]
  · have hE : mergeTablesE [{ cols := ["A"], rows := [[some s]] },
        { cols := ["A"], rows := [[some s]] }] { clean_data := some false } =
        .ok (cleanMergedData { cols := ["A"], rows := [[some s], [some s]] } false true) := by
      show (pdConcat [{ cols := ["A"], rows := [[some s]] },
          { cols := ["A"], rows := [[some s]] }] >>= fun merged =>
          Except.ok (cleanMergedData merged false true)) = _
      rw [hconcat]
      rfl
    show (mergeTables _ _).rows = _
    unfold mergeTables
    rw [hE, hnoclean]

/-- Witness for the amended C8 theorem at the cell text "x". -/
theorem dedup_follows_clean_flag_witness :
    (pyStrip "x" = "x" ∧ "x" ≠ "" ∧ "x" ≠ "nan") ∧
    (mergeTables [{ cols := ["A"], rows := [[some "x"]] },
                  { cols := ["A"], rows := [[some "x"]] }] {}).rows = [[some "x"]] ∧
    (mergeTables [{ cols := ["A"], rows := [[some "x"]] },
                  { cols := ["A"], rows := [[some "x"]] }]
      { clean_data := some false }).rows = [[some "x"], [some "x"]] :=
  ⟨⟨by decide, by decide, by decide⟩,
   dedup_follows_clean_flag "x" (by decide) (by decide) (by decide)⟩


/-- C9 counterexample: for the serialized 5-row by 3-column table with
exactly 3 of 15 cells non-empty, validation reports an
`empty_cell_percentage` of exactly 80 but does NOT emit the sparsity
warning, because the source tests `empty_cells / total_cells > 0.8`
strictly — refuting the claimed scenario. -/
theorem sparse_at_exactly_80_no_warning :
    (validateCsvData sparseCsv80).empty_cell_percentage = 80 ∧
    Warn.sparse ∉ (validateCsvData sparseCsv80).warnings ∧
    (validateCsvData sparseCsv80).row_count = 5 ∧
    (validateCsvData sparseCsv80).column_count = 3 := by
  refine ⟨?_, by decide, by decide, by decide⟩
  have h : (validateCsvData sparseCsv80).empty_cell_percentage
      = (((12 : Nat) : Rat) / ((15 : Nat) : Rat)) * 100 := rfl
  rw [h]
  norm_num

/-- C9 amended: for every CSV that parses into a non-degenerate frame,
the sparsity warning is emitted exactly when strictly more than 80 percent
of the cells are empty (`5 * empty > 4 * total`); at exactly 80 percent no
warning is emitted. -/
theorem sparse_warning_iff_strictly_above_80 (csv : String) (df : Df)
    (h1 : pdReadCsv csv = .ok df)
    (h2 : 0 < df.rows.length * df.cols.length) :
    (Warn.sparse ∈ (validateCsvData csv).warnings ↔
      5 * emptyCellCount df > 4 * (df.rows.length * df.cols.length)) := by
  have hne : csv ≠ "" := by
    intro h
    rw [h] at h1
    have hx : pdReadCsv "" = Except.error () := rfl
    rw [hx] at h1
    cases h1
  unfold validateCsvData
  rw [if_neg hne, h1]
  simp only [List.mem_append]
  split_ifs <;> simp_all

/-- Witness for the amended C9 theorem: a 3-by-3 frame with 8 of 9 cells
empty does carry the sparsity warning. -/
theorem sparse_warning_witness :
    (pdReadCsv sparseCsv89 = .ok df89 ∧ 0 < df89.rows.length * df89.cols.length) ∧
    Warn.sparse ∈ (validateCsvData sparseCsv89).warnings :=
  ⟨⟨by decide, by decide⟩,
   (sparse_warning_iff_strictly_above_80 sparseCsv89 df89 (by decide)
     (by decide)).mpr (by decide)⟩

end PdfToCsv
